import Mathlib

/-!
Verification development for the jsonrpc-playground repository.

The repository exposes a JSON-RPC 2.0 endpoint: `src/jsonrpc_playground/server.py`
defines a `JSONRPCServer` class with eight demo methods, registers them on the
shared `dispatcher` of the external json-rpc library, and serves them over HTTP
through `RequestHandler.do_POST`.

The data model, the server methods and `do_POST` below are translated from
`server.py`. The JSON-RPC message-handling core (`JSONRPCResponseManager.handle`
and the `dispatcher` method map) lives in the external json-rpc dependency whose
code is not part of the repository; those parts are modelled from the spec
(sections 4.1 to 4.4 and 7), as marked on each definition.
-/

/-- JSON values. Numbers are modelled as integers: every number appearing in the
repository and its spec is integral. -/
inductive Json where
  | null
  | bool (b : Bool)
  | int (n : Int)
  | str (s : String)
  | arr (elems : List Json)
  | obj (fields : List (String × Json))

/-- Lookup of a key in a JSON object field list (first occurrence wins; a parsed
Python dict holds each key once). -/
def lookupField : List (String × Json) → String → Option Json
  | [], _ => none
  | (k, v) :: rest, key => if k = key then some v else lookupField rest key

/-- Presence of a key in a JSON object field list. -/
def hasField (l : List (String × Json)) (k : String) : Bool :=
  (lookupField l k).isSome

/-- Python `isinstance(x, int)` on a decoded JSON value: true for numbers and
for booleans, since Python `bool` is a subclass of `int`. -/
def isinstance_int : Json → Bool
  | .int _ => true
  | .bool _ => true
  | _ => false

/-- Numeric value of a Python integer, where `True` counts as 1 and `False`
as 0. -/
def pyIntVal : Json → Int
  | .int n => n
  | .bool b => if b then 1 else 0
  | _ => 0

mutual

/-- Python `repr` of a decoded JSON value. -/
def pyRepr : Json → String
  | .null => "None"
  | .bool b => if b then "True" else "False"
  | .int n => toString n
  | .str s => "\x27" ++ s ++ "\x27"
  | .arr l => "[" ++ String.intercalate ", " (pyReprList l) ++ "]"
  | .obj l => "\x7b" ++ String.intercalate ", " (pyReprFields l) ++ "\x7d"

/-- Python `repr` of each element of a list. -/
def pyReprList : List Json → List String
  | [] => []
  | x :: xs => pyRepr x :: pyReprList xs

/-- Python `repr` of each field of a dict. -/
def pyReprFields : List (String × Json) → List String
  | [] => []
  | (k, v) :: xs => ("\x27" ++ k ++ "\x27: " ++ pyRepr v) :: pyReprFields xs

end

/-- Python `str` of a decoded JSON value, as used by f-string interpolation:
a string renders as itself, everything else as its `repr`. -/
def pyStr : Json → String
  | .str s => s
  | v => pyRepr v

/-- Python exceptions that the server methods can raise: `strict_add` and a
failing string concatenation raise `TypeError`, `cause_internal_error` raises
`RuntimeError`. -/
inductive PyError where
  | typeError (msg : String)
  | runtimeError (msg : String)
deriving Repr, DecidableEq

/-- Python `+` on decoded JSON values, as used by `add`: integers (booleans
included) add numerically, strings and lists concatenate, any other pair
raises `TypeError`. -/
def pyAdd (a b : Json) : Except PyError Json :=
  if isinstance_int a && isinstance_int b then
    .ok (.int (pyIntVal a + pyIntVal b))
  else
    match a, b with
    | .str s1, .str s2 => .ok (.str (s1 ++ s2))
    | .arr l1, .arr l2 => .ok (.arr (l1 ++ l2))
    | _, _ => .error (.typeError "unsupported operand type(s) for +")

/-- State of the server log file: `none` when the file does not exist,
`some s` when it exists with contents `s`. -/
abbrev LogState := Option String

/-- Python `trigger == "error"`: a non-string value compares unequal to the
string literal. -/
def isErrorTrigger : Json → Bool
  | .str s => s == "error"
  | _ => false

namespace JSONRPCServer

/-- Translation of `JSONRPCServer.add`: returns `a + b`. -/
def add (a b : Json) : Except PyError Json :=
  pyAdd a b

/-- Translation of `JSONRPCServer.greet`: returns the f-string
`Hello, \x7bname\x7d!`. -/
def greet (name : Json) : Json :=
  .str ("Hello, " ++ pyStr name ++ "!")

/-- Translation of `JSONRPCServer.log_message`: opens the log file in append
mode (which creates it when absent) and writes `message + "\n"`; a non-string
message makes the concatenation raise `TypeError` after the file has been
opened. Returns Python `None` on success. -/
def log_message (st : LogState) (message : Json) : Except PyError Json × LogState :=
  match message with
  | .str s => (.ok .null, some (st.getD "" ++ s ++ "\n"))
  | _ => (.error (.typeError "unsupported operand type(s) for +"), some (st.getD ""))

/-- Translation of `JSONRPCServer.get_log`: returns the contents of the log
file, or the sentinel when opening it raises `FileNotFoundError`. -/
def get_log (st : LogState) : String :=
  match st with
  | some s => s
  | none => "Log is empty."

/-- Translation of `JSONRPCServer.clear_log`: opens the log file in write mode
(truncating it, creating it when absent), writes the empty string, and returns
the confirmation message. -/
def clear_log (_st : LogState) : String × LogState :=
  ("Log cleared.", some "")

/-- Translation of `JSONRPCServer.cause_internal_error`: raises `RuntimeError`
when the trigger equals the string `error`, otherwise returns a confirmation
string interpolating the trigger. -/
def cause_internal_error (trigger : Json) : Except PyError Json :=
  if isErrorTrigger trigger then
    .error (.runtimeError "This is a deliberate internal error for demonstration")
  else
    .ok (.str ("No error triggered. Received: " ++ pyStr trigger))

/-- Translation of `JSONRPCServer.strict_add`: raises `TypeError` unless both
arguments satisfy `isinstance(_, int)`, otherwise returns `a + b`. -/
def strict_add (a b : Json) : Except PyError Json :=
  if !isinstance_int a || !isinstance_int b then
    .error (.typeError "Both parameters must be integers")
  else
    .ok (.int (pyIntVal a + pyIntVal b))

/-- Translation of `JSONRPCServer.demo_method`: returns the f-string
`Received: \x7bparam1\x7d and \x7bparam2\x7d`. -/
def demo_method (param1 param2 : Json) : Json :=
  .str ("Received: " ++ pyStr param1 ++ " and " ++ pyStr param2)

end JSONRPCServer

/-- Entry of the dispatcher method map: the server instance that owns the bound
method (identified by a number, standing for Python object identity) and the
name of the bound method on that instance. -/
structure MethodRef where
  owner : Nat
  target : String
deriving Repr, DecidableEq

/-- The `dispatcher.method_map` dict of the json-rpc library: method name to
bound method. -/
abbrev MethodMap := List (String × MethodRef)

/-- Dict assignment `method_map[name] = f`: overwrites an existing binding for
the name, otherwise appends. -/
def mapSet : MethodMap → String → MethodRef → MethodMap
  | [], k, v => [(k, v)]
  | (k1, v1) :: rest, k, v =>
    if k1 = k then (k, v) :: rest else (k1, v1) :: mapSet rest k v

/-- Dict lookup `method_map[name]`. -/
def mapLookup : MethodMap → String → Option MethodRef
  | [], _ => none
  | (k, v) :: rest, key => if k = key then some v else mapLookup rest key

/-- Modelled from the spec: `dispatcher.add_method(f, name)` of the external
json-rpc library registers the handler under the name, overwriting any
existing binding (spec 4.2). -/
def add_method (m : MethodMap) (ref : MethodRef) (name : String) : MethodMap :=
  mapSet m name ref

namespace JSONRPCServer

/-- Translation of `JSONRPCServer._setup_methods` (called by `__init__`):
first `dispatcher.method_map.clear()`, then eight `dispatcher.add_method`
calls in source order, each binding a method of the instance being
constructed. -/
def setup_methods (owner : Nat) (_m : MethodMap) : MethodMap :=
  let m0 : MethodMap := []
  let m1 := add_method m0 ⟨owner, "add"⟩ "add"
  let m2 := add_method m1 ⟨owner, "strict_add"⟩ "strict_add"
  let m3 := add_method m2 ⟨owner, "cause_internal_error"⟩ "cause_internal_error"
  let m4 := add_method m3 ⟨owner, "greet"⟩ "greet"
  let m5 := add_method m4 ⟨owner, "demo_method"⟩ "demo_method"
  let m6 := add_method m5 ⟨owner, "log_message"⟩ "log_message"
  let m7 := add_method m6 ⟨owner, "get_log"⟩ "get_log"
  add_method m7 ⟨owner, "clear_log"⟩ "clear_log"

end JSONRPCServer

/-- The method map after constructing one `JSONRPCServer`. -/
def standardMap : MethodMap :=
  JSONRPCServer.setup_methods 0 []

/-- Keys of an object all drawn from an allowed list of parameter names:
an unexpected keyword argument makes the Python call raise `TypeError`. -/
def keysIn (l : List (String × Json)) (allowed : List String) : Bool :=
  l.all (fun p => allowed.contains p.1)

/-- Modelled from the spec: binding of `params` to a two-parameter method of
the json-rpc library (spec 4.3 step 2) — a sequence binds positionally, a
mapping binds by name, anything else fails. `none` is a binding failure. -/
def bind2 (params : Option Json) (k1 k2 : String) : Option (Json × Json) :=
  match params with
  | some (.obj l) =>
    if keysIn l [k1, k2] then
      match lookupField l k1, lookupField l k2 with
      | some a, some b => some (a, b)
      | _, _ => none
    else none
  | some (.arr [a, b]) => some (a, b)
  | _ => none

/-- Modelled from the spec: binding of `params` to a one-parameter method
(spec 4.3 step 2). -/
def bind1 (params : Option Json) (k1 : String) : Option Json :=
  match params with
  | some (.obj l) =>
    if keysIn l [k1] then lookupField l k1 else none
  | some (.arr [a]) => some a
  | _ => none

/-- Modelled from the spec: binding of `params` to a zero-parameter method
(spec 4.3 step 2) — absence of params means zero arguments. -/
def bind0 (params : Option Json) : Bool :=
  match params with
  | none => true
  | some (.obj []) => true
  | some (.arr []) => true
  | _ => false

/-- Modelled from the spec: binding of `params` to `cause_internal_error`,
whose single parameter `trigger` has the default value `"error"` in the
source. -/
def bindTrigger (params : Option Json) : Option Json :=
  match params with
  | none => some (.str "error")
  | some (.obj l) =>
    if keysIn l ["trigger"] then some ((lookupField l "trigger").getD (.str "error"))
    else none
  | some (.arr []) => some (.str "error")
  | some (.arr [t]) => some t
  | _ => none

/-- Outcome of invoking a registered method: the binding of params to the
Python signature failed, the method raised, or the method returned a value. -/
inductive Invoked where
  | bindFail
  | raised (e : PyError)
  | ok (v : Json)

/-- Lift of a method result to an invocation outcome. -/
def ofExcept : Except PyError Json → Invoked
  | .ok v => .ok v
  | .error e => .raised e

/-- Invocation of a bound `JSONRPCServer` method by name: binds `params` to
the Python signature of the method (binding is modelled from the spec,
section 4.3 step 2; the method bodies are translated from the source) and
runs it against the log state. -/
def invoke (st : LogState) (target : String) (params : Option Json) :
    Invoked × LogState :=
  match target with
  | "add" =>
    match bind2 params "a" "b" with
    | none => (.bindFail, st)
    | some (a, b) => (ofExcept (JSONRPCServer.add a b), st)
  | "strict_add" =>
    match bind2 params "a" "b" with
    | none => (.bindFail, st)
    | some (a, b) => (ofExcept (JSONRPCServer.strict_add a b), st)
  | "cause_internal_error" =>
    match bindTrigger params with
    | none => (.bindFail, st)
    | some t => (ofExcept (JSONRPCServer.cause_internal_error t), st)
  | "greet" =>
    match bind1 params "name" with
    | none => (.bindFail, st)
    | some n => (.ok (JSONRPCServer.greet n), st)
  | "demo_method" =>
    match bind2 params "param1" "param2" with
    | none => (.bindFail, st)
    | some (p1, p2) => (.ok (JSONRPCServer.demo_method p1 p2), st)
  | "log_message" =>
    match bind1 params "message" with
    | none => (.bindFail, st)
    | some m =>
      let (r, st1) := JSONRPCServer.log_message st m
      (ofExcept r, st1)
  | "get_log" =>
    if bind0 params then (.ok (.str (JSONRPCServer.get_log st)), st)
    else (.bindFail, st)
  | "clear_log" =>
    if bind0 params then
      let (r, st1) := JSONRPCServer.clear_log st
      (.ok (.str r), st1)
    else (.bindFail, st)
  | _ => (.bindFail, st)

/-- Success response envelope, field order as serialized by the json-rpc
library: `jsonrpc`, `result`, `id`. -/
def successEnvelope (idv result : Json) : Json :=
  .obj [("jsonrpc", Json.str "2.0"), ("result", result), ("id", idv)]

/-- Error response envelope: `jsonrpc`, `error` (with `code`, `message` and an
optional `data`), `id`. -/
def errorEnvelope (idv : Json) (code : Int) (msg : String) (dat : Option Json) : Json :=
  .obj [("jsonrpc", Json.str "2.0"),
        ("error", .obj ([("code", Json.int code), ("message", Json.str msg)] ++
          (match dat with | some d => [("data", d)] | none => []))),
        ("id", idv)]

/-- The `jsonrpc` member equals the string literal `2.0`. -/
def isJsonrpc2 (l : List (String × Json)) : Bool :=
  match lookupField l "jsonrpc" with
  | some (Json.str s) => s == "2.0"
  | _ => false

/-- Modelled from the spec: structural validation of a single envelope object
(spec 4.1 step 3) — it must carry `jsonrpc` exactly equal to `"2.0"` and a
non-empty string `method`. -/
def validEnvelope (l : List (String × Json)) : Bool :=
  isJsonrpc2 l &&
  (match lookupField l "method" with
   | some (Json.str m) => m != ""
   | _ => false)

/-- Method name of a validated envelope. -/
def methodOf (l : List (String × Json)) : String :=
  match lookupField l "method" with
  | some (Json.str m) => m
  | _ => ""

/-- Modelled from the spec: processing of one element of the payload by the
json-rpc library (spec 4.1, 4.3 and 7). A non-object or a structurally
invalid object yields Invalid Request with whatever id is extractable. A
valid element is a request when the `id` key is present and a notification
otherwise; the method is dispatched through the registry, a missing method
yields Method Not Found, a binding failure or a `TypeError` raised by the
handler yields Invalid Params, any other handler exception yields a Server
error in the -32000 range carrying the exception message as `data`, and a
notification discards the computed result or error. -/
def processOne (reg : MethodMap) (st : LogState) (v : Json) :
    Option Json × LogState :=
  match v with
  | .obj l =>
    if validEnvelope l then
      let isReq := hasField l "id"
      let idv := (lookupField l "id").getD .null
      match mapLookup reg (methodOf l) with
      | none =>
        (if isReq then some (errorEnvelope idv (-32601) "Method not found" none)
         else none, st)
      | some ref =>
        let (res, st1) := invoke st ref.target (lookupField l "params")
        match res with
        | .bindFail =>
          (if isReq then some (errorEnvelope idv (-32602) "Invalid params" none)
           else none, st1)
        | .raised (.typeError m) =>
          (if isReq then
             some (errorEnvelope idv (-32602) "Invalid params" (some (.str m)))
           else none, st1)
        | .raised (.runtimeError m) =>
          (if isReq then
             some (errorEnvelope idv (-32000) "Server error" (some (.str m)))
           else none, st1)
        | .ok r =>
          (if isReq then some (successEnvelope idv r) else none, st1)
    else
      (some (errorEnvelope ((lookupField l "id").getD .null) (-32600)
        "Invalid Request" none), st)
  | _ => (some (errorEnvelope .null (-32600) "Invalid Request" none), st)

/-- Modelled from the spec: processing of the elements of a batch in order,
threading the log state and collecting the responses of the elements that
owe one (spec 4.3 and 4.4). -/
def handleBatch (reg : MethodMap) : LogState → List Json → List Json × LogState
  | st, [] => ([], st)
  | st, v :: rest =>
    let (r1, st1) := processOne reg st v
    let (rs, st2) := handleBatch reg st1 rest
    (match r1 with | some r => r :: rs | none => rs, st2)

/-- Modelled from the spec: `JSONRPCResponseManager.handle` on a successfully
parsed payload (spec 4.1 to 4.4). An empty array is itself an Invalid
Request; a non-empty array is processed as a batch whose aggregate response
is an array of the collected envelopes, or no response at all when every
element was a notification; anything else is processed as a single call. -/
def handleParsed (reg : MethodMap) (st : LogState) : Json → Option Json × LogState
  | .arr xs =>
    match xs with
    | [] => (some (errorEnvelope .null (-32600) "Invalid Request" none), st)
    | _ :: _ =>
      let (rs, st1) := handleBatch reg st xs
      (if rs.isEmpty then none else some (.arr rs), st1)
  | v => processOne reg st v

/-- Classification of a raw POST body as seen by `do_POST`: reading the
Content-Length header can raise, decoding the body bytes can raise, the
decoded text can fail to parse as JSON (empty or truncated bodies included),
or it parses to a JSON value. Every possible request lands in exactly one
constructor; the first two carry the Python exception message. -/
inductive PostInput where
  | badContentLength (emsg : String)
  | badUtf8 (emsg : String)
  | notJson (raw : String)
  | json (v : Json)

/-- HTTP response written by the handler: status code, Content-type header,
and the body, where `none` models writing the empty byte string and `some j`
models writing the serialization of `j`. -/
structure HttpResponse where
  status : Nat
  contentType : String
  body : Option Json

/-- Translation of the error response dict built in both `except` branches of
`do_POST`: code -32603, message `Internal error`, the stringified exception
as `data`, and id null. -/
def internalErrorEnvelope (emsg : String) : Json :=
  errorEnvelope .null (-32603) "Internal error" (some (.str emsg))

namespace RequestHandler

/-- Translation of `RequestHandler.do_POST`: reads and decodes the body,
hands it to `JSONRPCResponseManager.handle`, and writes a 200 response whose
body is the serialized response data, or empty when the manager returned no
response (notifications). Any exception raised while reading the header or
decoding the body is caught and converted to the -32603 envelope with id
null; a body that is not valid JSON is answered by the manager itself with a
Parse error envelope. -/
def do_POST (reg : MethodMap) (st : LogState) (inp : PostInput) :
    HttpResponse × LogState :=
  match inp with
  | .badContentLength e =>
    ({ status := 200, contentType := "application/json",
       body := some (internalErrorEnvelope e) }, st)
  | .badUtf8 e =>
    ({ status := 200, contentType := "application/json",
       body := some (internalErrorEnvelope e) }, st)
  | .notJson _ =>
    ({ status := 200, contentType := "application/json",
       body := some (errorEnvelope .null (-32700) "Parse error" none) }, st)
  | .json v =>
    let (resp, st1) := handleParsed reg st v
    ({ status := 200, contentType := "application/json", body := resp }, st1)

end RequestHandler

/-- Request envelope builder: `jsonrpc` 2.0, a method name, optional params,
optional id (absence of the id key makes it a notification). -/
def request (method : String) (params : Option Json) (idv : Option Json) : Json :=
  .obj ([("jsonrpc", Json.str "2.0"), ("method", Json.str method)] ++
        (match params with | some p => [("params", p)] | none => []) ++
        (match idv with | some i => [("id", i)] | none => []))

/-- Well-formed JSON-RPC response envelope per the spec data model: `jsonrpc`
equal to `"2.0"`, exactly one of `result` or `error`, and an `id` member. -/
def wellFormedEnvelope : Json → Bool
  | .obj l => isJsonrpc2 l && (hasField l "result" != hasField l "error") &&
      hasField l "id"
  | _ => false

/-- Well-formed JSON response body: a single response envelope, or a
non-empty array of response envelopes (a batch response). -/
def wellFormedResponse (j : Json) : Bool :=
  wellFormedEnvelope j ||
  (match j with
   | .arr l => !l.isEmpty && l.all wellFormedEnvelope
   | _ => false)

/-- The `id` member of a response envelope. -/
def respId : Json → Option Json
  | .obj l => lookupField l "id"
  | _ => none

/-- The `error.code` member of a response envelope. -/
def respErrorCode : Json → Option Int
  | .obj l =>
    match lookupField l "error" with
    | some (.obj el) =>
      match lookupField el "code" with
      | some (.int c) => some c
      | _ => none
    | _ => none
  | _ => none

/-- Presence of a `result` member in a response envelope. -/
def respHasResult : Json → Bool
  | .obj l => hasField l "result"
  | _ => false

theorem respId_errorEnvelope (idv : Json) (c : Int) (m : String) (d : Option Json) :
    respId (errorEnvelope idv c m d) = some idv := by
  cases d <;> rfl

theorem respId_successEnvelope (idv r : Json) :
    respId (successEnvelope idv r) = some idv := rfl

theorem wf_errorEnvelope (idv : Json) (c : Int) (m : String) (d : Option Json) :
    wellFormedEnvelope (errorEnvelope idv c m d) = true := by
  cases d <;> rfl

theorem wf_successEnvelope (idv r : Json) :
    wellFormedEnvelope (successEnvelope idv r) = true := rfl

theorem wfResp_of_env {j : Json} (h : wellFormedEnvelope j = true) :
    wellFormedResponse j = true := by
  simp [wellFormedResponse, h]

/-- Unfolding of `processOne` on a structurally invalid element. -/
theorem processOne_invalid (reg : MethodMap) (st : LogState)
    (l : List (String × Json)) (hv : validEnvelope l = false) :
    processOne reg st (.obj l) =
      (some (errorEnvelope ((lookupField l "id").getD .null) (-32600)
        "Invalid Request" none), st) := by
  simp only [processOne]
  rw [hv]
  rfl

/-- Unfolding of `processOne` on a valid element whose method is not
registered. -/
theorem processOne_notFound (reg : MethodMap) (st : LogState)
    (l : List (String × Json)) (hv : validEnvelope l = true)
    (hm : mapLookup reg (methodOf l) = none) :
    processOne reg st (.obj l) =
      (if hasField l "id" then
        some (errorEnvelope ((lookupField l "id").getD .null) (-32601)
          "Method not found" none)
       else none, st) := by
  simp only [processOne]
  rw [hv, hm]
  rfl

/-- Unfolding of `processOne` on a valid element whose method is registered:
the response is determined by the outcome of the invocation and by whether
the element is a request or a notification. -/
theorem processOne_found (reg : MethodMap) (st st1 : LogState)
    (l : List (String × Json)) (ref : MethodRef) (res : Invoked)
    (hv : validEnvelope l = true)
    (hm : mapLookup reg (methodOf l) = some ref)
    (hi : invoke st ref.target (lookupField l "params") = (res, st1)) :
    processOne reg st (.obj l) =
      (if hasField l "id" then
        some (match res with
          | .bindFail =>
            errorEnvelope ((lookupField l "id").getD .null) (-32602)
              "Invalid params" none
          | .raised (.typeError m) =>
            errorEnvelope ((lookupField l "id").getD .null) (-32602)
              "Invalid params" (some (.str m))
          | .raised (.runtimeError m) =>
            errorEnvelope ((lookupField l "id").getD .null) (-32000)
              "Server error" (some (.str m))
          | .ok r => successEnvelope ((lookupField l "id").getD .null) r)
       else none, st1) := by
  have h1 : (invoke st ref.target (lookupField l "params")).1 = res := by rw [hi]
  have h2 : (invoke st ref.target (lookupField l "params")).2 = st1 := by rw [hi]
  simp only [processOne]
  rw [hv, hm]
  dsimp only
  rw [h1, h2]
  rcases res with _ | e | r
  · rfl
  · rcases e with m | m <;> rfl
  · rfl

theorem wf_of_pair_eq {a r : Json} {s s1 : LogState}
    (h : ((some a : Option Json), s) = ((some r : Option Json), s1))
    (hw : wellFormedEnvelope a = true) : wellFormedEnvelope r = true := by
  injection h with h1 h2
  injection h1 with h1
  exact h1 ▸ hw

/-- Every response that `processOne` emits is a well-formed envelope. -/
theorem processOne_wf (reg : MethodMap) (st : LogState) (v : Json)
    (r : Json) (st1 : LogState) (h : processOne reg st v = (some r, st1)) :
    wellFormedEnvelope r = true := by
  rcases v with _ | b | n | s | xs | l
  case obj =>
    by_cases hv : validEnvelope l = true
    · rcases hm : mapLookup reg (methodOf l) with _ | ref
      · rw [processOne_notFound reg st l hv hm] at h
        by_cases hid : hasField l "id" = true
        · rw [if_pos hid] at h
          exact wf_of_pair_eq h (wf_errorEnvelope _ _ _ _)
        · rw [if_neg hid] at h
          exact absurd h (by simp)
      · rcases hinv : invoke st ref.target (lookupField l "params") with ⟨res, st2⟩
        rw [processOne_found reg st st2 l ref res hv hm hinv] at h
        by_cases hid : hasField l "id" = true
        · rw [if_pos hid] at h
          rcases res with _ | e | rr
          · exact wf_of_pair_eq h (wf_errorEnvelope _ _ _ _)
          · rcases e with m | m
            · exact wf_of_pair_eq h (wf_errorEnvelope _ _ _ _)
            · exact wf_of_pair_eq h (wf_errorEnvelope _ _ _ _)
          · exact wf_of_pair_eq h (wf_successEnvelope _ _)
        · rw [if_neg hid] at h
          exact absurd h (by simp)
    · rw [processOne_invalid reg st l (by simpa using hv)] at h
      exact wf_of_pair_eq h (wf_errorEnvelope _ _ _ _)
  case null =>
    exact wf_of_pair_eq h (wf_errorEnvelope _ _ _ _)
  case bool =>
    exact wf_of_pair_eq h (wf_errorEnvelope _ _ _ _)
  case int =>
    exact wf_of_pair_eq h (wf_errorEnvelope _ _ _ _)
  case str =>
    exact wf_of_pair_eq h (wf_errorEnvelope _ _ _ _)
  case arr =>
    exact wf_of_pair_eq h (wf_errorEnvelope _ _ _ _)

/-- Every response collected over a batch is a well-formed envelope. -/
theorem handleBatch_wf (reg : MethodMap) :
    ∀ (xs : List Json) (st : LogState) (rs : List Json) (st1 : LogState),
    handleBatch reg st xs = (rs, st1) → ∀ r ∈ rs, wellFormedEnvelope r = true := by
  intro xs
  induction xs with
  | nil =>
    intro st rs st1 h r hr
    simp only [handleBatch] at h
    injection h with h1 h2
    subst h1
    cases hr
  | cons v rest ih =>
    intro st rs st1 h r hr
    rcases h1 : processOne reg st v with ⟨r1, stA⟩
    rcases h2 : handleBatch reg stA rest with ⟨rs2, stB⟩
    simp only [handleBatch, h1, h2] at h
    rcases r1 with _ | rv
    · injection h with ha hb
      subst ha
      exact ih stA _ stB h2 r hr
    · injection h with ha hb
      subst ha
      rcases List.mem_cons.mp hr with hEq | hMem
      · exact hEq ▸ processOne_wf reg st v rv stA h1
      · exact ih stA _ stB h2 r hMem

/-- Every response body that the manager produces is a well-formed JSON
response. -/
theorem handleParsed_wf (reg : MethodMap) (st : LogState) (v : Json)
    (j : Json) (st1 : LogState) (h : handleParsed reg st v = (some j, st1)) :
    wellFormedResponse j = true := by
  rcases v with _ | b | n | s | xs | l
  case arr =>
    rcases xs with _ | ⟨x, rest⟩
    · simp only [handleParsed] at h
      injection h with h1 h2
      injection h1 with h1
      exact h1 ▸ wfResp_of_env (wf_errorEnvelope _ _ _ _)
    · rcases hb : handleBatch reg st (x :: rest) with ⟨rs, stB⟩
      simp only [handleParsed, hb] at h
      by_cases hemp : rs.isEmpty
      · rw [if_pos hemp] at h
        exact absurd h (by simp)
      · rw [if_neg hemp] at h
        injection h with h1 h2
        injection h1 with h1
        subst h1
        have hall : ∀ r ∈ rs, wellFormedEnvelope r = true := handleBatch_wf reg _ _ _ _ hb
        simp only [wellFormedResponse, wellFormedEnvelope, Bool.false_and,
          Bool.false_or]
        simp only [Bool.not_eq_true] at hemp  -- placeholderish
        rw [Bool.and_eq_true]
        constructor
        · simp [hemp]
        · rw [List.all_eq_true]
          intro x hx
          exact hall x hx
  case null =>
    have hp : processOne reg st .null = (some j, st1) := h
    exact wfResp_of_env (processOne_wf reg st _ j st1 hp)
  case bool =>
    have hp : processOne reg st (.bool b) = (some j, st1) := h
    exact wfResp_of_env (processOne_wf reg st _ j st1 hp)
  case int =>
    have hp : processOne reg st (.int n) = (some j, st1) := h
    exact wfResp_of_env (processOne_wf reg st _ j st1 hp)
  case str =>
    have hp : processOne reg st (.str s) = (some j, st1) := h
    exact wfResp_of_env (processOne_wf reg st _ j st1 hp)
  case obj =>
    have hp : processOne reg st (.obj l) = (some j, st1) := h
    exact wfResp_of_env (processOne_wf reg st _ j st1 hp)

/-- C4 counterexample: starting from a state with no log file, `clear_log`
followed by `get_log` returns the empty string, not the sentinel. -/
theorem c4_clear_then_get_counterexample :
    JSONRPCServer.get_log (JSONRPCServer.clear_log none).2 ≠ "Log is empty." := by
  decide

/-- C4 (amended): `clear_log()` writes an empty log file, so a following
`get_log()` returns the empty string from the now-existing file; the literal
sentinel `Log is empty.` is returned only when the log file does not exist. -/
theorem c4_clear_then_get_empty_string :
    (∀ st : LogState, JSONRPCServer.get_log (JSONRPCServer.clear_log st).2 = "") ∧
    JSONRPCServer.get_log none = "Log is empty." :=
  ⟨fun _ => rfl, rfl⟩

/-- C5: for every string `m` and every starting log state, appending `m` with
`log_message` and then reading with `get_log` returns a string that contains
`m`. -/
theorem c5_log_then_get_contains :
    ∀ (st : LogState) (m : String), ∃ pre post,
      JSONRPCServer.get_log (JSONRPCServer.log_message st (.str m)).2 =
        pre ++ m ++ post :=
  fun st m => ⟨st.getD "", "\n", rfl⟩

/-- C8: an `add` request with params `a = 5, b = 3` and id 1 is answered by
exactly the envelope with `jsonrpc` 2.0, `result` 8 and `id` 1, and in
general `add` on two integers returns their sum. -/
theorem c8_add_request :
    ∀ st : LogState,
      (RequestHandler.do_POST standardMap st
        (.json (request "add" (some (.obj [("a", .int 5), ("b", .int 3)]))
          (some (.int 1))))).1.body =
        some (.obj [("jsonrpc", .str "2.0"), ("result", .int 8), ("id", .int 1)]) ∧
      ∀ a b : Int, JSONRPCServer.add (.int a) (.int b) = .ok (.int (a + b)) :=
  fun _ => ⟨rfl, fun _ _ => rfl⟩

/-- C9: `strict_add` accepts JSON booleans because the `isinstance` check of
the source treats Python `bool` as `int`: the request `strict_add(a = true,
b = 3)` with id 1 is answered with result 4 rather than an Invalid Params
error, and in general a boolean argument contributes its numeric value. -/
theorem c9_strict_add_accepts_bool :
    ∀ st : LogState,
      (processOne standardMap st
        (request "strict_add" (some (.obj [("a", .bool true), ("b", .int 3)]))
          (some (.int 1)))).1 =
        some (successEnvelope (.int 1) (.int 4)) ∧
      ∀ (b : Bool) (n : Int),
        JSONRPCServer.strict_add (.bool b) (.int n) =
          .ok (.int ((if b then 1 else 0) + n)) :=
  fun _ => ⟨rfl, fun _ _ => rfl⟩

/-- C10: constructing a `JSONRPCServer` clears the shared dispatcher registry
and registers exactly the eight method names, each bound to the instance
being constructed; after a second construction the registry holds only
bindings to the second instance, whatever it held before. -/
theorem c10_setup_methods_registry :
    ∀ (m : MethodMap) (s1 s2 : Nat),
      JSONRPCServer.setup_methods s2 (JSONRPCServer.setup_methods s1 m) =
        [("add", ⟨s2, "add"⟩), ("strict_add", ⟨s2, "strict_add"⟩),
         ("cause_internal_error", ⟨s2, "cause_internal_error"⟩),
         ("greet", ⟨s2, "greet"⟩), ("demo_method", ⟨s2, "demo_method"⟩),
         ("log_message", ⟨s2, "log_message"⟩), ("get_log", ⟨s2, "get_log"⟩),
         ("clear_log", ⟨s2, "clear_log"⟩)] ∧
      ∀ p ∈ JSONRPCServer.setup_methods s2 (JSONRPCServer.setup_methods s1 m),
        p.2.owner = s2 := by
  intro _m s1 s2
  refine ⟨rfl, ?_⟩
  intro p hp
  have hp2 : p ∈ [(("add" : String), (⟨s2, "add"⟩ : MethodRef)),
      ("strict_add", ⟨s2, "strict_add"⟩),
      ("cause_internal_error", ⟨s2, "cause_internal_error"⟩),
      ("greet", ⟨s2, "greet"⟩), ("demo_method", ⟨s2, "demo_method"⟩),
      ("log_message", ⟨s2, "log_message"⟩), ("get_log", ⟨s2, "get_log"⟩),
      ("clear_log", ⟨s2, "clear_log"⟩)] := hp
  fin_cases hp2 <;> rfl

/-- C1: a valid envelope without an `id` key (a notification) produces no
response entry from the manager, and a POST carrying a single such
notification is answered with an empty body — whatever the handler computed
or raised is discarded. -/
theorem c1_notification_no_response :
    ∀ (reg : MethodMap) (st : LogState) (l : List (String × Json)),
      validEnvelope l = true → hasField l "id" = false →
      (processOne reg st (.obj l)).1 = none ∧
      (RequestHandler.do_POST reg st (.json (.obj l))).1.body = none := by
  intro reg st l hv hid
  have hid2 : ¬ (hasField l "id" = true) := by simp [hid]
  rcases hm : mapLookup reg (methodOf l) with _ | ref
  · have hp := processOne_notFound reg st l hv hm
    rw [if_neg hid2] at hp
    refine ⟨by rw [hp], ?_⟩
    have hh : handleParsed reg st (.obj l) = (none, st) := hp
    simp [RequestHandler.do_POST, hh]
  · rcases hinv : invoke st ref.target (lookupField l "params") with ⟨res, st2⟩
    have hp := processOne_found reg st st2 l ref res hv hm hinv
    rw [if_neg hid2] at hp
    refine ⟨by rw [hp], ?_⟩
    have hh : handleParsed reg st (.obj l) = (none, st2) := hp
    simp [RequestHandler.do_POST, hh]

/-- Witness for C1: a `log_message` notification. -/
theorem c1_notification_no_response_witness :
    validEnvelope [("jsonrpc", Json.str "2.0"), ("method", Json.str "log_message"),
      ("params", Json.obj [("message", Json.str "x")])] = true ∧
    hasField [("jsonrpc", Json.str "2.0"), ("method", Json.str "log_message"),
      ("params", Json.obj [("message", Json.str "x")])] "id" = false ∧
    ((processOne standardMap none
        (.obj [("jsonrpc", Json.str "2.0"), ("method", Json.str "log_message"),
          ("params", Json.obj [("message", Json.str "x")])])).1 = none ∧
      (RequestHandler.do_POST standardMap none
        (.json (.obj [("jsonrpc", Json.str "2.0"), ("method", Json.str "log_message"),
          ("params", Json.obj [("message", Json.str "x")])]))).1.body = none) :=
  ⟨rfl, rfl, c1_notification_no_response standardMap none _ rfl rfl⟩

/-- Every valid request (an `id` member is present) gets exactly one response
from `processOne`, and its `id` member echoes the request `id`. -/
theorem processOne_req_id (reg : MethodMap) (st : LogState)
    (l : List (String × Json)) (idv : Json)
    (hv : validEnvelope l = true) (hid : lookupField l "id" = some idv) :
    ∃ r st1, processOne reg st (.obj l) = (some r, st1) ∧ respId r = some idv := by
  have hasId : hasField l "id" = true := by simp [hasField, hid]
  have hgetD : (lookupField l "id").getD .null = idv := by rw [hid]; rfl
  rcases hm : mapLookup reg (methodOf l) with _ | ref
  · have hp := processOne_notFound reg st l hv hm
    rw [if_pos hasId, hgetD] at hp
    exact ⟨_, st, hp, respId_errorEnvelope _ _ _ _⟩
  · rcases hinv : invoke st ref.target (lookupField l "params") with ⟨res, st2⟩
    have hp := processOne_found reg st st2 l ref res hv hm hinv
    rw [if_pos hasId, hgetD] at hp
    rcases res with _ | e | r
    · exact ⟨_, st2, hp, respId_errorEnvelope _ _ _ _⟩
    · rcases e with m | m
      · exact ⟨_, st2, hp, respId_errorEnvelope _ _ _ _⟩
      · exact ⟨_, st2, hp, respId_errorEnvelope _ _ _ _⟩
    · exact ⟨_, st2, hp, respId_successEnvelope _ _⟩

/-- C3: for every valid request envelope, whatever its `id` value (string,
integer, or any other JSON value), the response the server writes carries
exactly that value as its `id` member. -/
theorem c3_response_id_echoes_request_id :
    ∀ (reg : MethodMap) (st : LogState) (l : List (String × Json)) (idv : Json),
      validEnvelope l = true → lookupField l "id" = some idv →
      ∃ r, (processOne reg st (.obj l)).1 = some r ∧ respId r = some idv ∧
        (RequestHandler.do_POST reg st (.json (.obj l))).1.body = some r := by
  intro reg st l idv hv hid
  obtain ⟨r, st1, hp, hr⟩ := processOne_req_id reg st l idv hv hid
  refine ⟨r, by rw [hp], hr, ?_⟩
  have hh : handleParsed reg st (.obj l) = (some r, st1) := hp
  simp [RequestHandler.do_POST, hh]

/-- Witness for C3: a string id comes back as the same string and an integer
id as the same integer, on two concrete `greet` requests. -/
theorem c3_response_id_echoes_request_id_witness :
    (validEnvelope [("jsonrpc", Json.str "2.0"), ("method", Json.str "greet"),
        ("params", Json.obj [("name", Json.str "Alice")]), ("id", Json.str "abc")] = true ∧
      lookupField [("jsonrpc", Json.str "2.0"), ("method", Json.str "greet"),
        ("params", Json.obj [("name", Json.str "Alice")]), ("id", Json.str "abc")] "id" =
        some (Json.str "abc") ∧
      ∃ r, (processOne standardMap none
          (.obj [("jsonrpc", Json.str "2.0"), ("method", Json.str "greet"),
            ("params", Json.obj [("name", Json.str "Alice")]), ("id", Json.str "abc")])).1 =
          some r ∧ respId r = some (Json.str "abc") ∧
        (RequestHandler.do_POST standardMap none
          (.json (.obj [("jsonrpc", Json.str "2.0"), ("method", Json.str "greet"),
            ("params", Json.obj [("name", Json.str "Alice")]),
            ("id", Json.str "abc")]))).1.body = some r) ∧
    (validEnvelope [("jsonrpc", Json.str "2.0"), ("method", Json.str "greet"),
        ("params", Json.obj [("name", Json.str "Alice")]), ("id", Json.int 7)] = true ∧
      lookupField [("jsonrpc", Json.str "2.0"), ("method", Json.str "greet"),
        ("params", Json.obj [("name", Json.str "Alice")]), ("id", Json.int 7)] "id" =
        some (Json.int 7) ∧
      ∃ r, (processOne standardMap none
          (.obj [("jsonrpc", Json.str "2.0"), ("method", Json.str "greet"),
            ("params", Json.obj [("name", Json.str "Alice")]), ("id", Json.int 7)])).1 =
          some r ∧ respId r = some (Json.int 7) ∧
        (RequestHandler.do_POST standardMap none
          (.json (.obj [("jsonrpc", Json.str "2.0"), ("method", Json.str "greet"),
            ("params", Json.obj [("name", Json.str "Alice")]),
            ("id", Json.int 7)]))).1.body = some r) :=
  ⟨⟨rfl, rfl, c3_response_id_echoes_request_id standardMap none _ _ rfl rfl⟩,
   ⟨rfl, rfl, c3_response_id_echoes_request_id standardMap none _ _ rfl rfl⟩⟩

/-- C6: a `strict_add` request in which either argument is not an integer at
the JSON level is answered with an Invalid Params error envelope, code
-32602, and never with a result. -/
theorem c6_strict_add_rejects_non_int :
    ∀ (st : LogState) (idv a b : Json),
      (isinstance_int a && isinstance_int b) = false →
      (processOne standardMap st
        (request "strict_add" (some (.obj [("a", a), ("b", b)])) (some idv))).1 =
        some (errorEnvelope idv (-32602) "Invalid params"
          (some (.str "Both parameters must be integers"))) ∧
      respErrorCode (errorEnvelope idv (-32602) "Invalid params"
          (some (.str "Both parameters must be integers"))) = some (-32602) ∧
      respHasResult (errorEnvelope idv (-32602) "Invalid params"
          (some (.str "Both parameters must be integers"))) = false := by
  intro st idv a b h
  refine ⟨?_, rfl, rfl⟩
  cases a <;> cases b <;>
    first
      | rfl
      | simp [isinstance_int] at h

/-- Witness for C6: the concrete call `strict_add(a = "5", b = 3)`. -/
theorem c6_strict_add_rejects_non_int_witness :
    (isinstance_int (.str "5") && isinstance_int (.int 3)) = false ∧
    ((processOne standardMap none
      (request "strict_add" (some (.obj [("a", .str "5"), ("b", .int 3)]))
        (some (.int 2)))).1 =
      some (errorEnvelope (.int 2) (-32602) "Invalid params"
        (some (.str "Both parameters must be integers"))) ∧
    respErrorCode (errorEnvelope (.int 2) (-32602) "Invalid params"
        (some (.str "Both parameters must be integers"))) = some (-32602) ∧
    respHasResult (errorEnvelope (.int 2) (-32602) "Invalid params"
        (some (.str "Both parameters must be integers"))) = false) :=
  ⟨by decide, c6_strict_add_rejects_non_int none (.int 2) (.str "5") (.int 3) (by decide)⟩

/-- C7: a `cause_internal_error` request with trigger `error` is answered with
an error envelope whose code lies in the server-error range and whose `data`
is the exception message; the same call as a notification produces no
response body at all; any trigger not equal to the string `error` yields the
confirmation string interpolating the trigger. -/
theorem c7_cause_internal_error :
    ∀ (st : LogState) (idv : Json),
      (∃ c, (RequestHandler.do_POST standardMap st
          (.json (request "cause_internal_error"
            (some (.obj [("trigger", .str "error")])) (some idv)))).1.body =
          some (errorEnvelope idv c "Server error"
            (some (.str "This is a deliberate internal error for demonstration"))) ∧
          -32099 ≤ c ∧ c ≤ -32000) ∧
      (RequestHandler.do_POST standardMap st
        (.json (request "cause_internal_error"
          (some (.obj [("trigger", .str "error")])) none))).1.body = none ∧
      (∀ v : Json, isErrorTrigger v = false →
        (processOne standardMap st
          (request "cause_internal_error" (some (.obj [("trigger", v)]))
            (some idv))).1 =
          some (successEnvelope idv
            (.str ("No error triggered. Received: " ++ pyStr v)))) := by
  intro st idv
  refine ⟨⟨-32000, rfl, by norm_num, by norm_num⟩, rfl, ?_⟩
  intro v hv
  rcases v with _ | b | n | s | xs | l2
  case str =>
    show (processOne standardMap st
      (.obj [("jsonrpc", Json.str "2.0"), ("method", Json.str "cause_internal_error"),
        ("params", Json.obj [("trigger", Json.str s)]), ("id", idv)])).1 =
      some (successEnvelope idv
        (.str ("No error triggered. Received: " ++ pyStr (Json.str s))))
    have hc : JSONRPCServer.cause_internal_error (Json.str s) =
        .ok (.str ("No error triggered. Received: " ++ pyStr (Json.str s))) := by
      simp [JSONRPCServer.cause_internal_error, hv]
    have hi : invoke st (MethodRef.mk 0 "cause_internal_error").target
        (lookupField [("jsonrpc", Json.str "2.0"),
          ("method", Json.str "cause_internal_error"),
          ("params", Json.obj [("trigger", Json.str s)]), ("id", idv)] "params") =
        (Invoked.ok (.str ("No error triggered. Received: " ++ pyStr (Json.str s))),
          st) := by
      show (ofExcept (JSONRPCServer.cause_internal_error (Json.str s)), st) =
        (Invoked.ok (.str ("No error triggered. Received: " ++ pyStr (Json.str s))),
          st)
      rw [hc]
      rfl
    have hp := processOne_found standardMap st st
      [("jsonrpc", Json.str "2.0"), ("method", Json.str "cause_internal_error"),
        ("params", Json.obj [("trigger", Json.str s)]), ("id", idv)]
      ⟨0, "cause_internal_error"⟩
      (Invoked.ok (.str ("No error triggered. Received: " ++ pyStr (Json.str s))))
      rfl rfl hi
    rw [hp]
    rfl
  case null => rfl
  case bool => rfl
  case int => rfl
  case arr => rfl
  case obj => rfl

/-- Witness for C7: the trigger `safe` is not `error` and yields the
confirmation string. -/
theorem c7_cause_internal_error_witness :
    isErrorTrigger (.str "safe") = false ∧
    (processOne standardMap none
      (request "cause_internal_error" (some (.obj [("trigger", .str "safe")]))
        (some (.int 9)))).1 =
      some (successEnvelope (.int 9)
        (.str ("No error triggered. Received: " ++ pyStr (.str "safe")))) :=
  ⟨rfl, (c7_cause_internal_error none (.int 9)).2.2 (.str "safe") rfl⟩

/-- C2: no input is fatal to the transport layer — for every classified POST
body the handler replies with HTTP status 200 carrying either an empty body
or a well-formed JSON-RPC response, and any exception caught inside
`do_POST` itself (unreadable Content-Length, undecodable bytes) is converted
to an envelope with error code -32603 and id null. -/
theorem c2_transport_total :
    ∀ (reg : MethodMap) (st : LogState) (inp : PostInput),
      (RequestHandler.do_POST reg st inp).1.status = 200 ∧
      ((RequestHandler.do_POST reg st inp).1.body = none ∨
        ∃ j, (RequestHandler.do_POST reg st inp).1.body = some j ∧
          wellFormedResponse j = true) ∧
      ∀ e : String,
        (RequestHandler.do_POST reg st (.badContentLength e)).1.body =
          some (internalErrorEnvelope e) ∧
        (RequestHandler.do_POST reg st (.badUtf8 e)).1.body =
          some (internalErrorEnvelope e) ∧
        respId (internalErrorEnvelope e) = some .null ∧
        respErrorCode (internalErrorEnvelope e) = some (-32603) := by
  intro reg st inp
  refine ⟨?_, ?_, fun e => ⟨rfl, rfl, rfl, rfl⟩⟩
  · rcases inp with e | e | raw | v
    · rfl
    · rfl
    · rfl
    · rcases hh : handleParsed reg st v with ⟨resp, st1⟩
      simp [RequestHandler.do_POST, hh]
  · rcases inp with e | e | raw | v
    · exact Or.inr ⟨internalErrorEnvelope e, rfl,
        wfResp_of_env (wf_errorEnvelope _ _ _ _)⟩
    · exact Or.inr ⟨internalErrorEnvelope e, rfl,
        wfResp_of_env (wf_errorEnvelope _ _ _ _)⟩
    · exact Or.inr ⟨errorEnvelope .null (-32700) "Parse error" none, rfl,
        wfResp_of_env (wf_errorEnvelope _ _ _ _)⟩
    · rcases hh : handleParsed reg st v with ⟨resp, st1⟩
      rcases resp with _ | j
      · exact Or.inl (by simp [RequestHandler.do_POST, hh])
      · exact Or.inr ⟨j, by simp [RequestHandler.do_POST, hh],
          handleParsed_wf reg st v j st1 hh⟩
